import Mathlib

set_option maxRecDepth 8192

/-!
Verification development for the radio station monitor
(src/public/radio_monitor_supabase.py).

The Python source is shallowly embedded below: pure helpers become Lean
functions on `List Char` / `String`; the stateful per-cycle steps become
explicit functions from the relevant state to the new state; the remote
calls performed by the sync path become an explicit list of remote
operations; the scheduler loop becomes an event-trace function over a
stream of connectivity-probe results.
-/

namespace RadioMonitor

/-- Python whitespace for str.strip (ASCII part; the source only ever
strips text coming from trimmed DOM innerText). -/
def isSpace (c : Char) : Bool :=
  c == ' ' || c == '\t' || c == '\n' || c == '\r' || c == '\x0b' || c == '\x0c'

/-- Python str.strip on a character list. -/
def pyStripL (l : List Char) : List Char :=
  ((l.dropWhile isSpace).reverse.dropWhile isSpace).reverse

/-- Python text.split(chr(10)): split on every newline, keeping empty parts. -/
def splitNl : List Char → List (List Char)
  | [] => [[]]
  | c :: cs =>
    let r := splitNl cs
    if c = '\n' then [] :: r
    else
      match r with
      | h :: t => (c :: h) :: t
      | [] => [[c]]

/-- Case-insensitive character equality (re.IGNORECASE). -/
def lcEq (a b : Char) : Bool := a.toLower == b.toLower

/-- Drop a case-insensitive expected sequence from the front of a list,
returning the remainder on success. -/
def dropSeqCI : List Char → List Char → Option (List Char)
  | [], l => some l
  | _ :: _, [] => none
  | p :: ps, c :: cs => if lcEq p c then dropSeqCI ps cs else none

/-- One re.sub of the pattern for a trailing LIVE marker
(backslash-n? LIVE backslash-s* $, IGNORECASE) on an already stripped
string: remove a case-insensitive "LIVE" suffix plus one preceding
newline when present. -/
def subLive (l : List Char) : List Char :=
  match dropSeqCI ['e', 'v', 'i', 'l'] l.reverse with
  | none => l
  | some rest =>
    match rest with
    | '\n' :: t => t.reverse
    | _ => rest.reverse

/-- One re.sub of the relative-time pattern
(backslash-n? digits backslash-s* (min|sec|h) backslash-s* ago $,
IGNORECASE) on an already stripped string, working backwards from the
end: "ago", optional whitespace, a unit, optional whitespace, a maximal
nonempty digit run, one optional preceding newline. -/
def subRelTime (l : List Char) : List Char :=
  match dropSeqCI ['o', 'g', 'a'] l.reverse with
  | none => l
  | some r1 =>
    let r2 := r1.dropWhile isSpace
    match (dropSeqCI ['n', 'i', 'm'] r2 <|> dropSeqCI ['c', 'e', 's'] r2 <|>
           dropSeqCI ['h'] r2) with
    | none => l
    | some r3 =>
      let r4 := r3.dropWhile isSpace
      if (r4.takeWhile Char.isDigit).isEmpty then l
      else
        match r4.dropWhile Char.isDigit with
        | '\n' :: t => t.reverse
        | r5 => r5.reverse

/-- One re.sub of the hours-minutes pattern
(backslash-n? digits h digits m backslash-s* ago $, IGNORECASE) on an
already stripped string. -/
def subHM (l : List Char) : List Char :=
  match dropSeqCI ['o', 'g', 'a'] l.reverse with
  | none => l
  | some r1 =>
    match r1.dropWhile isSpace with
    | m :: r3 =>
      if lcEq m 'm' then
        if (r3.takeWhile Char.isDigit).isEmpty then l
        else
          match r3.dropWhile Char.isDigit with
          | h :: r4 =>
            if lcEq h 'h' then
              if (r4.takeWhile Char.isDigit).isEmpty then l
              else
                match r4.dropWhile Char.isDigit with
                | '\n' :: t => t.reverse
                | r5 => r5.reverse
            else l
          | [] => l
      else l
    | [] => l

/-- The loop over the three MyTuner time-suffix patterns: each re.sub is
followed by .strip(), as in parse_song_text. -/
def cleanTimePatterns (l : List Char) : List Char :=
  pyStripL (subHM (pyStripL (subRelTime (pyStripL (subLive l)))))

/-- The re.match of the bare-timestamp pattern (^ two digits : two digits $):
as in Python, $ also accepts one trailing newline. -/
def isBareTimestamp : List Char → Bool
  | [a, b, c, d, e] => a.isDigit && b.isDigit && c == ':' && d.isDigit && e.isDigit
  | [a, b, c, d, e, f] =>
      a.isDigit && b.isDigit && c == ':' && d.isDigit && e.isDigit && f == '\n'
  | _ => false

/-- A normalized song: parse_song_text returns a dict with these keys. -/
structure Song where
  title : String
  artist : String
deriving DecidableEq, Repr

/-- The non-empty stripped lines of the cleaned text
([l.strip() for l in cleaned.split(chr(10)) if l.strip()]). -/
def songLines (cleaned : List Char) : List (List Char) :=
  ((splitNl cleaned).map pyStripL).filter (fun l => !l.isEmpty)

/-- Split at the first occurrence of a separator sequence
(cleaned.split(sep, 1) when sep occurs in cleaned). -/
def splitOnceL (sep : List Char) : List Char → Option (List Char × List Char)
  | [] => if sep.isEmpty then some ([], []) else none
  | c :: cs =>
    if sep = (c :: cs).take sep.length then some ([], (c :: cs).drop sep.length)
    else (splitOnceL sep cs).map (fun p => (c :: p.1, p.2))

/-- One separator attempt of the "Artista - Título" rule: split once,
accept when both stripped sides have length greater than 1; the left
side is the artist, the right side the title. -/
def trySep (sep cleaned : List Char) : Option Song :=
  match splitOnceL sep cleaned with
  | none => none
  | some p =>
    let a := pyStripL p.1
    let b := pyStripL p.2
    if a.length > 1 && b.length > 1 then
      some { title := String.mk b, artist := String.mk a }
    else none

/-- The separator vocabulary, in source order: hyphen, en dash, em dash,
vertical bar, each padded with spaces. -/
def separators : List (List Char) :=
  [[' ', '-', ' '], [' ', '–', ' '], [' ', '—', ' '], [' ', '|', ' ']]

/-- First separator (in vocabulary order) that matches with valid parts. -/
def firstSepMatch (cleaned : List Char) : Option Song :=
  separators.foldr (fun sep acc => (trySep sep cleaned).orElse (fun _ => acc)) none

/-- Rules 3 and 4 of parse_song_text: the separator loop over the whole
cleaned text, then the fallback (first line as title, or the stripped
original text when no line survived, with the sentinel artist). -/
def sepPhase (t cleaned : List Char) (lines : List (List Char)) : Song :=
  match firstSepMatch cleaned with
  | some s => s
  | none =>
    match lines with
    | l0 :: _ => { title := String.mk l0, artist := "Desconhecido" }
    | [] => { title := String.mk t, artist := "Desconhecido" }

/-- Body of parse_song_text after the initial falsy-input check, applied
to the stripped text t. -/
def parseCore (t : List Char) : Song :=
  match songLines (cleanTimePatterns t) with
  | l0 :: l1 :: rest =>
    if !l1.isEmpty && l1.length > 1 && !isBareTimestamp l1 then
      { title := String.mk l0, artist := String.mk l1 }
    else sepPhase t (cleanTimePatterns t) (l0 :: l1 :: rest)
  | ls => sepPhase t (cleanTimePatterns t) ls

/-- The parse_song_text normalizer from the source: empty input short-circuits, the rest
works on the stripped text. -/
def parse_song_text (text : String) : Song :=
  if text = "" then { title := "", artist := "" }
  else parseCore (pyStripL text.data)


/-- One capture for a station, as built by the extractors: the dict with
url, nome, tocando_agora, ultimas_tocadas, timestamp and erro. -/
structure Capture where
  url : String
  nome : String
  tocando_agora : Option String
  ultimas_tocadas : List String
  timestamp : String
  erro : Option String
deriving DecidableEq, Repr

/-- One entry of a station's historico_completo list. -/
structure HistoryEntry where
  musica : String
  timestamp : String
deriving DecidableEq, Repr

/-- The last n elements of a list (Python slicing with a negative start). -/
def takeLast (n : Nat) (l : List α) : List α := l.drop (l.length - n)

/-- The local-history append of the cycle loop: append only when the
list is empty or the most recent musica differs, then keep the last 1000
entries; the Bool reports whether an append happened. -/
def record_if_changed (hist : List HistoryEntry) (song ts : String) :
    List HistoryEntry × Bool :=
  match hist.getLast? with
  | none => (takeLast 1000 (hist ++ [{ musica := song, timestamp := ts }]), true)
  | some e =>
    if e.musica = song then (hist, false)
    else (takeLast 1000 (hist ++ [{ musica := song, timestamp := ts }]), true)

/-- The whole local-store step of the cycle loop for one station: only a
truthy tocando_agora is recorded. -/
def atualizarHistoricoLocal (hist : List HistoryEntry) (dados : Capture) :
    List HistoryEntry :=
  match dados.tocando_agora with
  | none => hist
  | some s => if s = "" then hist else (record_if_changed hist s dados.timestamp).1

/-- Fold a sequence of (song, timestamp) appends through record_if_changed. -/
def runAppends (hist : List HistoryEntry) (items : List (String × String)) :
    List HistoryEntry :=
  items.foldl (fun h p => (record_if_changed h p.1 p.2).1) hist

/-- Build the HistoryEntry a (song, timestamp) pair would be stored as. -/
def mkEntry (p : String × String) : HistoryEntry :=
  { musica := p.1, timestamp := p.2 }

/-- One remote operation performed by the sync path. The source has both
supabase_insert and supabase_select available; the trace records which
ones a call actually performs and with which row content. -/
inductive RemoteOp where
  | insertScraped (station_name title artist : String) (is_now_playing : Bool)
      (source : String) (station_id : Option Nat)
  | insertHistorico (station_name artist title source : String)
  | selectQuery (table : String)
deriving DecidableEq, Repr

/-- The acceptance test applied to the parsed now-playing song before any
push: not a bare timestamp, length at least 2, and not the sentinel
artist with a title shorter than 4. -/
def nowPlayingAccept (title artist : String) : Bool :=
  !(isBareTimestamp title.data || decide (title.length < 2)) &&
  !((artist == "Desconhecido") && decide (title.length < 4))

/-- The acceptance test applied to each parsed recently-played item:
truthy title of length at least 3, not a bare timestamp, and an artist
other than the sentinel. -/
def recentAccept (title artist : String) : Bool :=
  !title.isEmpty && decide (3 ≤ title.length) &&
  !isBareTimestamp title.data && (artist != "Desconhecido")

/-- The push attempted for one recently-played item (the body of the
final loop of _enviar_para_supabase). -/
def recentPush (nome song_text : String) : Option RemoteOp :=
  let s := parse_song_text song_text
  if recentAccept s.title s.artist then
    some (RemoteOp.insertHistorico nome s.artist s.title "python_monitor")
  else none

/-- The pushes attempted for the recently-played items: only the first 5
are considered. -/
def recentOps (nome : String) (ultimas : List String) : List RemoteOp :=
  (ultimas.take 5).filterMap (recentPush nome)

/-- The now-playing title actually pushed: the parsed title, or the
stripped raw text when the parsed title is falsy. -/
def resolveTitle (raw_text : String) : String :=
  if (parse_song_text raw_text).title = "" then String.mk (pyStripL raw_text.data)
  else (parse_song_text raw_text).title

/-- The now-playing artist actually pushed: the parsed artist, or the
sentinel when the parsed artist is falsy. -/
def resolveArtist (raw_text : String) : String :=
  if (parse_song_text raw_text).artist = "" then "Desconhecido"
  else (parse_song_text raw_text).artist

/-- The remote operations performed by _enviar_para_supabase for one
capture, with SUPABASE_OK true. A falsy tocando_agora returns early;
noisy now-playing titles return early; otherwise one scraped_songs
insert and one radio_historico insert for the now-playing song, then
the recently-played pushes. A station_id of 0 is falsy in Python and is
left off the scraped_songs row. -/
def enviar_para_supabase (dados : Capture) (station_id : Option Nat) :
    List RemoteOp :=
  match dados.tocando_agora with
  | none => []
  | some raw_text =>
    if raw_text = "" then []
    else
      let title := resolveTitle raw_text
      let artist := resolveArtist raw_text
      if isBareTimestamp title.data || decide (title.length < 2) then []
      else if artist = "Desconhecido" ∧ title.length < 4 then []
      else
        let sid := match station_id with
          | some i => if i = 0 then none else some i
          | none => none
        RemoteOp.insertScraped dados.nome title artist true "python_monitor" sid ::
        RemoteOp.insertHistorico dados.nome artist title "python_monitor" ::
        recentOps dados.nome dados.ultimas_tocadas

/-- Whether a remote operation is an insert (as opposed to a select). -/
def isInsertOp : RemoteOp → Bool
  | RemoteOp.selectQuery _ => false
  | _ => true

/-- Whether a remote operation is a select query. -/
def isSelectOp : RemoteOp → Bool
  | RemoteOp.selectQuery _ => true
  | _ => false

/-- Whether a remote operation inserts into the rolling history table. -/
def isHistoricoInsert : RemoteOp → Bool
  | RemoteOp.insertHistorico _ _ _ _ => true
  | _ => false

/-- The title carried by an insert, for stating the stored-title invariant
(selects carry none). -/
def opTitle : RemoteOp → Option String
  | RemoteOp.insertScraped _ t _ _ _ _ => some t
  | RemoteOp.insertHistorico _ _ t _ => some t
  | RemoteOp.selectQuery _ => none

/-- The page-access capability used by the extractors: navigation plus the
three in-page evaluations, each of which can fail with a message. -/
structure PageOracle where
  goto : String → Except String Unit
  evalNowPlaying : Except String (Option String)
  evalRecent : Except String (List String)
  evalClubSongs : Except String (List String)

/-- Whether an Except result is a success. -/
def exOk : Except String α → Bool
  | Except.ok _ => true
  | Except.error _ => false

/-- The fresh capture both extractors start from. -/
def baseCapture (url nome ts : String) : Capture :=
  { url := url, nome := nome, tocando_agora := none, ultimas_tocadas := [],
    timestamp := ts, erro := none }

/-- The _extrair_mytuner extractor: navigate, evaluate the now-playing selectors, then
the recently-played collector; any failure is caught and stored in erro,
keeping the fields already assigned. -/
def extrairMytuner (page : PageOracle) (url nome ts : String) : Capture :=
  let base := baseCapture url nome ts
  match page.goto url with
  | Except.error e => { base with erro := some e }
  | Except.ok _ =>
    match page.evalNowPlaying with
    | Except.error e => { base with erro := some e }
    | Except.ok r1 =>
      let d1 := match r1 with
        | some s => if s = "" then base else { base with tocando_agora := some s }
        | none => base
      match page.evalRecent with
      | Except.error e => { d1 with erro := some e }
      | Except.ok r2 => if r2.isEmpty then d1 else { d1 with ultimas_tocadas := r2 }

/-- The _extrair_clubefm extractor: navigate, evaluate the song collector; a nonempty
result yields its head as tocando_agora and the whole list as
ultimas_tocadas; any failure is caught and stored in erro. -/
def extrairClubefm (page : PageOracle) (url nome ts : String) : Capture :=
  let base := baseCapture url nome ts
  match page.goto url with
  | Except.error e => { base with erro := some e }
  | Except.ok _ =>
    match page.evalClubSongs with
    | Except.error e => { base with erro := some e }
    | Except.ok r =>
      match r with
      | [] => base
      | s :: _ => { base with tocando_agora := some s, ultimas_tocadas := r }

/-- One configured station, as assembled by _carregar_radios_supabase. -/
structure Radio where
  nome : String
  url : String
  tipo : String
  id : Option Nat
deriving Repr

/-- The per-station extraction dispatch of _atualizar_todas. -/
def processarRadio (page : PageOracle) (ts : String) (r : Radio) : Capture :=
  if r.tipo = "clubefm" then extrairClubefm page r.url r.nome ts
  else extrairMytuner page r.url r.nome ts

/-- The extraction pass of one cycle: every station in order, one capture
each, sharing the page handle. -/
def atualizarTodas (page : PageOracle) (ts : String) (radios : List Radio) :
    List Capture :=
  radios.map (processarRadio page ts)

/-- Observable scheduler events: a connectivity probe with its result, the
30-second reconnect sleep, one full monitoring cycle (extraction plus
sync), and entry into the countdown cooldown. -/
inductive Event where
  | probe (ok : Bool)
  | sleepReconnect
  | cycle
  | cooldown
deriving DecidableEq, Repr

/-- Whether an event is the running-cycle pass. -/
def isCycle : Event → Bool
  | Event.cycle => true
  | _ => false

/-- The _aguardar_reconexao loop over a stream of probe results: every failed probe
is followed by the 30-second sleep; the first successful probe exits the
loop. Returns the events and the unconsumed probes. -/
def aguardarReconexao : List Bool → List Event × List Bool
  | [] => ([], [])
  | b :: rest =>
    if b then ([Event.probe true], rest)
    else
      let r := aguardarReconexao rest
      (Event.probe false :: Event.sleepReconnect :: r.1, r.2)

/-- One iteration of the iniciar loop, up to entry into the cooldown
countdown: probe once; on failure wait in _aguardar_reconexao, then run
one cycle and enter cooldown. -/
def iteracao : List Bool → List Event × List Bool
  | [] => ([], [])
  | b :: rest =>
    if b then ([Event.probe true, Event.cycle, Event.cooldown], rest)
    else
      let r := aguardarReconexao rest
      (Event.probe false :: (r.1 ++ [Event.cycle, Event.cooldown]), r.2)

/-- The event prefix produced while connectivity is down, for n failed
probes in a row: the iniciar probe has no sleep of its own, each
in-_aguardar_reconexao failed probe is followed by one sleep. -/
def schedPrefix : Nat → List Event
  | 0 => []
  | Nat.succ m =>
    Event.probe false :: (List.replicate m [Event.probe false, Event.sleepReconnect]).flatten

/-- A family of pairwise-distinct song strings, used to exercise the
1000-entry cap on a concrete run. -/
def natSong (i : Nat) : String := String.mk (List.replicate i 'a')

/-- 1001 distinct (song, timestamp) appends. -/
def capItems : List (String × String) :=
  (List.range 1001).map (fun i => (natSong i, "t"))

section Theorems

example : parse_song_text "Imagine\nJohn Lennon\n3 min ago" =
    { title := "Imagine", artist := "John Lennon" } := by decide

example : parse_song_text "John Lennon - Imagine" =
    { title := "Imagine", artist := "John Lennon" } := by decide

example : parse_song_text "12:45" = { title := "12:45", artist := "Desconhecido" } := by
  decide

example : parse_song_text "" = { title := "", artist := "" } := by decide

example : parse_song_text "Foo - Bar\n12:45" =
    { title := "Bar\n12:45", artist := "Foo" } := by decide

example : parse_song_text "Song Title\nLIVE" =
    { title := "Song Title", artist := "Desconhecido" } := by decide

theorem natSong_injective : Function.Injective natSong := by
  intro a b h
  have h2 : List.replicate a 'a' = List.replicate b 'a' := congrArg String.data h
  simpa using congrArg List.length h2

theorem takeLast_length_le (n : Nat) (l : List α) : (takeLast n l).length ≤ n := by
  simp only [takeLast, List.length_drop]
  omega

theorem takeLast_of_le {n : Nat} {l : List α} (h : l.length ≤ n) : takeLast n l = l := by
  unfold takeLast
  have h0 : l.length - n = 0 := by omega
  rw [h0, List.drop_zero]

theorem takeLast_ne_nil {n : Nat} (hn : 0 < n) {l : List α} (hl : l ≠ []) :
    takeLast n l ≠ [] := by
  have hlen : 0 < l.length := List.length_pos.mpr hl
  simp only [takeLast, ne_eq, List.drop_eq_nil_iff]
  omega

theorem getLast?_takeLast {n : Nat} (hn : 0 < n) (l : List α) :
    (takeLast n l).getLast? = l.getLast? := by
  rcases eq_or_ne l [] with rfl | hl
  · simp [takeLast]
  · have hne : l.drop (l.length - n) ≠ [] := takeLast_ne_nil hn hl
    have h := List.getLast?_append_of_ne_nil (l.take (l.length - n)) hne
    rw [List.take_append_drop] at h
    exact h.symm

theorem takeLast_append_singleton {n : Nat} (hn : 0 < n) (l : List α) (e : α) :
    takeLast n (takeLast n l ++ [e]) = takeLast n (l ++ [e]) := by
  rcases le_or_lt l.length n with h | h
  · have h0 : l.length - n = 0 := by omega
    simp [takeLast, h0]
  · have hdl : (l.drop (l.length - n)).length = n := by
      rw [List.length_drop]; omega
    show (l.drop (l.length - n) ++ [e]).drop ((l.drop (l.length - n) ++ [e]).length - n)
        = (l ++ [e]).drop ((l ++ [e]).length - n)
    rw [List.length_append, List.length_append, hdl, List.length_singleton]
    have e2 : n + 1 - n = 1 := by omega
    have e3 : l.length + 1 - n = (l.length - n) + 1 := by omega
    rw [e2, e3]
    rw [List.drop_append_of_le_length (by omega : l.length - n + 1 ≤ l.length)]
    rw [List.drop_append_of_le_length (by rw [hdl]; omega : 1 ≤ (l.drop (l.length - n)).length)]
    rw [List.drop_drop]

theorem record_eq_append (hist : List HistoryEntry) (song ts : String)
    (h : ∀ e, hist.getLast? = some e → e.musica ≠ song) :
    record_if_changed hist song ts =
      (takeLast 1000 (hist ++ [{ musica := song, timestamp := ts }]), true) := by
  unfold record_if_changed
  rcases hl : hist.getLast? with _ | e
  · rfl
  · simp [h e hl]

theorem record_eq_skip (hist : List HistoryEntry) (song ts : String) (e : HistoryEntry)
    (hl : hist.getLast? = some e) (he : e.musica = song) :
    record_if_changed hist song ts = (hist, false) := by
  unfold record_if_changed
  rw [hl]
  simp [he]

theorem record_length_le (hist : List HistoryEntry) (song ts : String)
    (h : hist.length ≤ 1000) : (record_if_changed hist song ts).1.length ≤ 1000 := by
  rcases hl : hist.getLast? with _ | e
  · rw [record_eq_append hist song ts (fun e2 h2 => by rw [hl] at h2; cases h2)]
    exact takeLast_length_le 1000 _
  · by_cases he : e.musica = song
    · rw [record_eq_skip hist song ts e hl he]
      exact h
    · rw [record_eq_append hist song ts
        (fun e2 h2 => by rw [hl] at h2; cases h2; exact he)]
      exact takeLast_length_le 1000 _

theorem record_getLast_musica (hist : List HistoryEntry) (song ts : String) :
    ∃ e, (record_if_changed hist song ts).1.getLast? = some e ∧ e.musica = song := by
  rcases hl : hist.getLast? with _ | e
  · rw [record_eq_append hist song ts (fun e2 h2 => by rw [hl] at h2; cases h2)]
    refine ⟨({ musica := song, timestamp := ts } : HistoryEntry), ?_, rfl⟩
    show (takeLast 1000
      (hist ++ [({ musica := song, timestamp := ts } : HistoryEntry)])).getLast? = _
    rw [getLast?_takeLast (by norm_num)]
    exact List.getLast?_concat _
  · by_cases he : e.musica = song
    · rw [record_eq_skip hist song ts e hl he]
      exact ⟨e, hl, he⟩
    · rw [record_eq_append hist song ts
        (fun e2 h2 => by rw [hl] at h2; cases h2; exact he)]
      refine ⟨({ musica := song, timestamp := ts } : HistoryEntry), ?_, rfl⟩
      show (takeLast 1000
        (hist ++ [({ musica := song, timestamp := ts } : HistoryEntry)])).getLast? = _
      rw [getLast?_takeLast (by norm_num)]
      exact List.getLast?_concat _

/-- C2: calling the local-history append twice in a row with an identical
song for the same key returns false on the second call, and the stored
history after the second call equals the history after the first call,
whatever the starting history was. -/
theorem record_if_changed_idempotent (hist : List HistoryEntry) (song ts ts2 : String) :
    (record_if_changed (record_if_changed hist song ts).1 song ts2).2 = false ∧
    (record_if_changed (record_if_changed hist song ts).1 song ts2).1 =
      (record_if_changed hist song ts).1 := by
  obtain ⟨e, hlast, hmus⟩ := record_getLast_musica hist song ts
  rw [record_eq_skip (record_if_changed hist song ts).1 song ts2 e hlast hmus]
  exact ⟨rfl, rfl⟩

theorem runAppends_length_le (items : List (String × String)) :
    ∀ hist : List HistoryEntry, hist.length ≤ 1000 →
      (runAppends hist items).length ≤ 1000 := by
  induction items with
  | nil => intro hist h; exact h
  | cons it rest ih =>
    intro hist h
    exact ih (record_if_changed hist it.1 it.2).1 (record_length_le hist it.1 it.2 h)

theorem runAppends_takeLast (items : List (String × String)) :
    ∀ processed : List (String × String),
      (((processed ++ items).map Prod.fst).Chain' (· ≠ ·)) →
      runAppends (takeLast 1000 (processed.map mkEntry)) items =
        takeLast 1000 ((processed ++ items).map mkEntry) := by
  induction items with
  | nil => intro processed _; simp [runAppends]
  | cons it rest ih =>
    intro processed h
    have hstep : (record_if_changed (takeLast 1000 (processed.map mkEntry)) it.1 it.2).1
        = takeLast 1000 ((processed ++ [it]).map mkEntry) := by
      rcases hq : processed.getLast? with _ | plast
      · have hpnil : processed = [] := List.getLast?_eq_none_iff.mp hq
        subst hpnil
        have h0 : takeLast 1000 (([] : List (String × String)).map mkEntry) = [] := by
          rw [List.map_nil]
          exact takeLast_of_le (by simp)
        rw [h0, record_eq_append [] it.1 it.2 (by intro e2 h2; simp at h2)]
        rfl
      · have hpne : processed ≠ [] := by
          intro hnil; subst hnil; simp at hq
        have hmne : processed.map mkEntry ≠ [] := by
          simpa using hpne
        have hlastst : (takeLast 1000 (processed.map mkEntry)).getLast?
            = some (mkEntry plast) := by
          rw [getLast?_takeLast (by norm_num), List.getLast?_map, hq]
          rfl
        have hne : plast.1 ≠ it.1 := by
          rw [List.map_append, List.map_cons] at h
          have hadj := (List.chain'_append.mp h).2.2
          exact hadj plast.1 (by rw [List.getLast?_map, hq]; rfl) it.1 rfl
        have harg : ∀ e2, (takeLast 1000 (processed.map mkEntry)).getLast? = some e2 →
            e2.musica ≠ it.1 := by
          intro e2 h2
          rw [hlastst] at h2
          cases h2
          simpa [mkEntry] using hne
        calc (record_if_changed (takeLast 1000 (processed.map mkEntry)) it.1 it.2).1
            = takeLast 1000 (takeLast 1000 (processed.map mkEntry) ++ [mkEntry it]) := by
              rw [record_eq_append (takeLast 1000 (processed.map mkEntry)) it.1 it.2 harg]
              simp only [mkEntry]
          _ = takeLast 1000 (processed.map mkEntry ++ [mkEntry it]) :=
              takeLast_append_singleton (by norm_num) _ _
          _ = takeLast 1000 ((processed ++ [it]).map mkEntry) := by
              simp [List.map_append, mkEntry]
    have hfold : runAppends (takeLast 1000 (processed.map mkEntry)) (it :: rest)
        = runAppends
            (record_if_changed (takeLast 1000 (processed.map mkEntry)) it.1 it.2).1 rest :=
      rfl
    rw [hfold, hstep, ih (processed ++ [it]) (by simpa using h)]
    simp

/-- C3: the per-key history length never exceeds 1000 under any sequence
of appends, and for 1001 pairwise-distinct accepted appends starting
from an empty store the result is exactly the most recent 1000 entries:
the first appended entry has been evicted. -/
theorem history_cap_and_fifo (hist : List HistoryEntry)
    (its items : List (String × String))
    (hcap : hist.length ≤ 1000) (hlen : items.length = 1001)
    (hnd : (items.map Prod.fst).Nodup) :
    (runAppends hist its).length ≤ 1000 ∧
    runAppends [] items = (items.map mkEntry).drop 1 ∧
    ∀ e ∈ runAppends [] items, ∀ p0 ∈ items.head?, e.musica ≠ p0.1 := by
  have hch : ((([] : List (String × String)) ++ items).map Prod.fst).Chain' (· ≠ ·) := by
    simpa using List.Pairwise.chain' hnd
  have hrun : runAppends [] items = takeLast 1000 (items.map mkEntry) := by
    have h := runAppends_takeLast items [] hch
    have h00 : takeLast 1000 (([] : List (String × String)).map mkEntry) = [] := by
      rw [List.map_nil]
      exact takeLast_of_le (by simp)
    rw [h00] at h
    simpa using h
  have hdrop : takeLast 1000 (items.map mkEntry) = (items.map mkEntry).drop 1 := by
    unfold takeLast
    congr 1
    rw [List.length_map, hlen]
  refine ⟨runAppends_length_le its hist hcap, hrun.trans hdrop, ?_⟩
  intro e he p0 hp0
  rw [hrun, hdrop, ← List.map_drop] at he
  obtain ⟨p, hpmem, rfl⟩ := List.mem_map.mp he
  cases items with
  | nil => simp at hp0
  | cons i0 tail =>
    have hp0e : i0 = p0 := by simpa using hp0
    have hnotin : i0.1 ∉ tail.map Prod.fst := by
      rw [List.map_cons, List.nodup_cons] at hnd
      exact hnd.1
    have hp : p ∈ tail := by simpa using hpmem
    intro heq
    have heq2 : p.1 = p0.1 := heq
    rw [← hp0e] at heq2
    exact hnotin (heq2 ▸ List.mem_map_of_mem Prod.fst hp)

/-- Witness for C3 at a concrete run of 1001 distinct appends. -/
theorem history_cap_and_fifo_witness :
    (runAppends [] [(("x" : String), ("t" : String))]).length ≤ 1000 ∧
    runAppends [] capItems = (capItems.map mkEntry).drop 1 := by
  have hnd : (capItems.map Prod.fst).Nodup := by
    have hmap : capItems.map Prod.fst = (List.range 1001).map natSong := by
      simp [capItems, List.map_map]
    rw [hmap]
    exact (List.nodup_range 1001).map natSong_injective
  have h := history_cap_and_fifo [] [("x", "t")] capItems (by simp)
    (by simp [capItems]) hnd
  exact ⟨h.1, h.2.1⟩

theorem mk_ne_empty {l : List Char} (h : l ≠ []) : String.mk l ≠ "" := by
  intro he
  exact h (congrArg String.data he)

theorem trySep_title_ne {sep cleaned : List Char} {s : Song}
    (h : trySep sep cleaned = some s) : s.title ≠ "" := by
  rcases hs : splitOnceL sep cleaned with _ | p
  · unfold trySep at h
    rw [hs] at h
    exact absurd h (by simp)
  · unfold trySep at h
    rw [hs] at h
    simp only [] at h
    by_cases hc :
        (decide ((pyStripL p.1).length > 1) && decide ((pyStripL p.2).length > 1)) = true
    · rw [if_pos hc] at h
      cases h
      simp only [Bool.and_eq_true, decide_eq_true_eq] at hc
      apply mk_ne_empty
      intro hnil
      rw [hnil] at hc
      simp at hc
    · rw [if_neg hc] at h
      cases h

theorem sepFold_title_ne (cleaned : List Char) :
    ∀ (seps : List (List Char)) (s : Song),
      seps.foldr (fun sep acc => (trySep sep cleaned).orElse (fun _ => acc)) none = some s →
      s.title ≠ "" := by
  intro seps
  induction seps with
  | nil => intro s h; exact absurd h (by simp)
  | cons sep rest ih =>
    intro s h
    simp only [List.foldr] at h
    rcases ht : trySep sep cleaned with _ | s2
    · rw [ht] at h
      simp only [Option.orElse] at h
      exact ih s h
    · rw [ht] at h
      simp only [Option.orElse] at h
      cases h
      exact trySep_title_ne ht

theorem songLines_ne_nil (cleaned : List Char) : ∀ l ∈ songLines cleaned, l ≠ [] := by
  intro l hl hnil
  subst hnil
  have h2 := (List.mem_filter.mp hl).2
  simp at h2

theorem sepPhase_title_ne (t cleaned : List Char) (lines : List (List Char))
    (ht : t ≠ []) (hl : ∀ l ∈ lines, l ≠ []) : (sepPhase t cleaned lines).title ≠ "" := by
  unfold sepPhase
  rcases hf : firstSepMatch cleaned with _ | s2
  · cases lines with
    | nil => exact mk_ne_empty ht
    | cons l0 rest => exact mk_ne_empty (hl l0 (by simp))
  · exact sepFold_title_ne cleaned separators s2 hf

/-- C1 (amended): for every raw input whose stripped text is non-empty,
parse_song_text returns a Song with non-empty title; the all-whitespace
and empty inputs are the only ones yielding an empty title. -/
theorem parse_song_text_title_nonempty (s : String) (h : pyStripL s.data ≠ []) :
    (parse_song_text s).title ≠ "" := by
  have hs : s ≠ "" := by
    intro heq
    subst heq
    exact h rfl
  unfold parse_song_text
  rw [if_neg hs]
  unfold parseCore
  rcases hl : songLines (cleanTimePatterns (pyStripL s.data)) with _ | ⟨l0, ls⟩
  · exact sepPhase_title_ne _ _ _ h (by intro l hm; cases hm)
  · cases ls with
    | nil =>
      apply sepPhase_title_ne _ _ _ h
      intro l hm
      apply songLines_ne_nil (cleanTimePatterns (pyStripL s.data))
      rw [hl]
      exact hm
    | cons l1 rest =>
      show (if !l1.isEmpty && l1.length > 1 && !isBareTimestamp l1 then
          ({ title := String.mk l0, artist := String.mk l1 } : Song)
        else sepPhase (pyStripL s.data) (cleanTimePatterns (pyStripL s.data))
          (l0 :: l1 :: rest)).title ≠ ""
      by_cases hc : (!l1.isEmpty && decide (l1.length > 1) && !isBareTimestamp l1) = true
      · rw [if_pos hc]
        apply mk_ne_empty
        apply songLines_ne_nil (cleanTimePatterns (pyStripL s.data))
        rw [hl]
        simp
      · rw [if_neg hc]
        apply sepPhase_title_ne _ _ _ h
        intro l hm
        apply songLines_ne_nil (cleanTimePatterns (pyStripL s.data))
        rw [hl]
        exact hm

/-- C1 counterexample: the empty input yields an empty title and an empty
artist, and a whitespace-only input yields an empty title, contradicting
non-emptiness and the worst-case sentinel-artist clause. -/
theorem parse_song_text_counterexample :
    (parse_song_text "").title = "" ∧ (parse_song_text "").artist = "" ∧
    (parse_song_text " ").title = "" := by decide

/-- Witness for C1 at a concrete non-blank input. -/
theorem parse_song_text_title_nonempty_witness :
    pyStripL ("Imagine" : String).data ≠ [] ∧ (parse_song_text "Imagine").title ≠ "" :=
  ⟨by decide, parse_song_text_title_nonempty "Imagine" (by decide)⟩

/-- C7 (amended): with at least 2 cleaned lines where line 1 matches the
bare HH:MM pattern or has length at most 1, parse_song_text falls
through to the separator phase applied to the WHOLE cleaned text (all
lines), not to line 0 alone; line 0 is used only in the no-separator
fallback. -/
theorem parse_fallthrough_whole_text (s : String) (l0 l1 : List Char)
    (rest : List (List Char))
    (hlines : songLines (cleanTimePatterns (pyStripL s.data)) = l0 :: l1 :: rest)
    (hbad : l1.length ≤ 1 ∨ isBareTimestamp l1 = true) :
    parse_song_text s =
      sepPhase (pyStripL s.data) (cleanTimePatterns (pyStripL s.data))
        (l0 :: l1 :: rest) := by
  have hs : s ≠ "" := by
    intro heq
    subst heq
    have h0 : songLines (cleanTimePatterns (pyStripL ("" : String).data)) = [] := by decide
    rw [h0] at hlines
    cases hlines
  have hcond : (!l1.isEmpty && decide (l1.length > 1) && !isBareTimestamp l1) = false := by
    rcases hbad with hb | hb
    · have h2 : decide (l1.length > 1) = false := by
        simp only [decide_eq_false_iff_not]
        omega
      simp [h2]
    · simp [hb]
  unfold parse_song_text
  rw [if_neg hs]
  unfold parseCore
  rw [hlines]
  show (if !l1.isEmpty && l1.length > 1 && !isBareTimestamp l1 then
      ({ title := String.mk l0, artist := String.mk l1 } : Song)
    else sepPhase (pyStripL s.data) (cleanTimePatterns (pyStripL s.data))
      (l0 :: l1 :: rest)) = _
  rw [if_neg (by simp [hcond])]

/-- C7 counterexample: for the input with line 0 equal to
"Foo - Bar" and line 1 a bare timestamp, the separator split works on
the whole cleaned text, so the title keeps the second line; the claimed
line-0-only behavior would give title "Bar". -/
theorem parse_fallthrough_counterexample :
    parse_song_text "Foo - Bar\n12:45" = { title := "Bar\n12:45", artist := "Foo" } ∧
    parse_song_text "Foo - Bar\n12:45" ≠ { title := "Bar", artist := "Foo" } := by
  decide

/-- Witness for C7 at a concrete two-line input whose second line is a
bare timestamp. -/
theorem parse_fallthrough_whole_text_witness :
    parse_song_text "Foo - Bar\n12:45" =
      sepPhase (pyStripL ("Foo - Bar\n12:45" : String).data)
        (cleanTimePatterns (pyStripL ("Foo - Bar\n12:45" : String).data))
        (("Foo - Bar" : String).data :: ("12:45" : String).data :: []) :=
  parse_fallthrough_whole_text "Foo - Bar\n12:45" _ _ [] (by decide)
    (Or.inr (by decide))

/-- C8: both extraction variants are total over any page behavior: the
returned Capture has erro = none exactly when every page step succeeded,
so a failing step is recorded in erro instead of escaping; and the cycle
produces one capture per station regardless of page behavior, so no
station's failure aborts the others. -/
theorem extraction_total (page : PageOracle) (url nome ts : String)
    (radios : List Radio) :
    ((extrairMytuner page url nome ts).erro = none ↔
      (exOk (page.goto url) = true ∧ exOk page.evalNowPlaying = true ∧
        exOk page.evalRecent = true)) ∧
    ((extrairClubefm page url nome ts).erro = none ↔
      (exOk (page.goto url) = true ∧ exOk page.evalClubSongs = true)) ∧
    (atualizarTodas page ts radios).length = radios.length := by
  refine ⟨?_, ?_, by simp [atualizarTodas]⟩
  · unfold extrairMytuner
    rcases hg : page.goto url with e | u
    · simp [exOk, hg, baseCapture]
    · rcases hn : page.evalNowPlaying with e | r1
      · simp [exOk, hg, hn, baseCapture]
      · rcases hr : page.evalRecent with e | r2
        · rcases r1 with _ | s2
          · simp [exOk, hg, hn, hr, baseCapture]
          · by_cases hs2 : s2 = "" <;> simp [exOk, hg, hn, hr, hs2, baseCapture]
        · rcases r1 with _ | s2
          · by_cases hr2 : r2.isEmpty <;> simp [exOk, hg, hn, hr, hr2, baseCapture]
          · by_cases hs2 : s2 = "" <;> by_cases hr2 : r2.isEmpty <;>
              simp [exOk, hg, hn, hr, hs2, hr2, baseCapture]
  · unfold extrairClubefm
    rcases hg : page.goto url with e | u
    · simp [exOk, hg, baseCapture]
    · rcases hc : page.evalClubSongs with e | r
      · simp [exOk, hg, hc, baseCapture]
      · rcases r with _ | ⟨s2, r2⟩ <;> simp [exOk, hg, hc, baseCapture]

/-- Witness for C8: a page whose navigation fails yields a populated erro
and a successful page yields erro = none, at concrete oracles. -/
theorem extraction_total_witness :
    ((extrairMytuner
        { goto := fun _ => Except.error "timeout",
          evalNowPlaying := Except.ok none,
          evalRecent := Except.ok [],
          evalClubSongs := Except.ok [] } "u" "R" "T").erro = none ↔
      (exOk ((fun _ => (Except.error "timeout" : Except String Unit)) "u") = true ∧
        exOk (Except.ok (none : Option String) : Except String (Option String)) = true ∧
        exOk (Except.ok ([] : List String) : Except String (List String)) = true)) ∧
    (atualizarTodas
        { goto := fun _ => Except.error "timeout",
          evalNowPlaying := Except.ok none,
          evalRecent := Except.ok [],
          evalClubSongs := Except.ok [] } "T"
        [{ nome := "R", url := "u", tipo := "mytuner", id := none }]).length =
      ([{ nome := "R", url := "u", tipo := "mytuner", id := none }] : List Radio).length := by
  have h := extraction_total
    { goto := fun _ => Except.error "timeout",
      evalNowPlaying := Except.ok none,
      evalRecent := Except.ok [],
      evalClubSongs := Except.ok [] } "u" "R" "T"
    [{ nome := "R", url := "u", tipo := "mytuner", id := none }]
  exact ⟨h.1, h.2.2⟩

theorem aguardar_spec (m : Nat) (rest : List Bool) :
    aguardarReconexao (List.replicate m false ++ true :: rest) =
      ((List.replicate m [Event.probe false, Event.sleepReconnect]).flatten ++
        [Event.probe true], rest) := by
  induction m with
  | zero => simp [aguardarReconexao]
  | succ k ih =>
    rw [List.replicate_succ, List.cons_append]
    unfold aguardarReconexao
    rw [if_neg (by simp)]
    rw [ih]
    simp [List.replicate_succ]

theorem cycle_not_mem_flatten (m : Nat) :
    Event.cycle ∉ (List.replicate m [Event.probe false, Event.sleepReconnect]).flatten := by
  induction m with
  | zero => simp
  | succ k ih => simp [List.replicate_succ, ih]

/-- C9: while the connectivity probe keeps returning false, the one-pass
scheduler trace contains only failed probes and reconnect sleeps (no
cycle); as soon as the probe returns true the trace runs exactly one
cycle and then enters cooldown, whatever the later probe stream is. -/
theorem scheduler_reconnect (n : Nat) (rest : List Bool) :
    iteracao (List.replicate n false ++ true :: rest) =
      (schedPrefix n ++ [Event.probe true, Event.cycle, Event.cooldown], rest) ∧
    Event.cycle ∉ schedPrefix n ∧
    (iteracao (List.replicate n false ++ true :: rest)).1.countP isCycle = 1 := by
  have heq : iteracao (List.replicate n false ++ true :: rest) =
      (schedPrefix n ++ [Event.probe true, Event.cycle, Event.cooldown], rest) := by
    cases n with
    | zero => simp [iteracao, schedPrefix]
    | succ m =>
      rw [List.replicate_succ, List.cons_append]
      rw [show iteracao (false :: (List.replicate m false ++ true :: rest)) =
          (Event.probe false ::
            ((aguardarReconexao (List.replicate m false ++ true :: rest)).1 ++
              [Event.cycle, Event.cooldown]),
            (aguardarReconexao (List.replicate m false ++ true :: rest)).2) from rfl]
      rw [aguardar_spec m rest]
      simp [schedPrefix]
  have hnotmem : Event.cycle ∉ schedPrefix n := by
    cases n with
    | zero => simp [schedPrefix]
    | succ m =>
      simp only [schedPrefix, List.mem_cons, not_or]
      exact ⟨by simp, cycle_not_mem_flatten m⟩
  refine ⟨heq, hnotmem, ?_⟩
  rw [heq]
  simp only [List.countP_append]
  have h0 : (schedPrefix n).countP isCycle = 0 := by
    rw [List.countP_eq_zero]
    intro a ha hca
    cases a <;> simp [isCycle] at hca
    exact hnotmem (by simpa [hca] using ha)
  rw [h0]
  decide

theorem recentAccept_of_push {nome s2 : String} {op : RemoteOp}
    (h : recentPush nome s2 = some op) :
    recentAccept (parse_song_text s2).title (parse_song_text s2).artist = true ∧
    op = RemoteOp.insertHistorico nome (parse_song_text s2).artist
      (parse_song_text s2).title "python_monitor" := by
  unfold recentPush at h
  by_cases hacc :
      recentAccept (parse_song_text s2).title (parse_song_text s2).artist = true
  · rw [if_pos hacc] at h
    cases h
    exact ⟨hacc, rfl⟩
  · rw [if_neg hacc] at h
    cases h

theorem recentAccept_title {t a : String} (h : recentAccept t a = true) :
    isBareTimestamp t.data = false ∧ 3 ≤ t.length ∧ a ≠ "Desconhecido" := by
  unfold recentAccept at h
  simp only [Bool.and_eq_true, Bool.not_eq_true', decide_eq_true_eq, bne_iff_ne,
    ne_eq] at h
  exact ⟨h.1.2, h.1.1.2, h.2⟩

theorem enviar_ops_shape (dados : Capture) (sid : Option Nat) (op : RemoteOp)
    (hop : op ∈ enviar_para_supabase dados sid) :
    (∃ title artist s2, op = RemoteOp.insertScraped dados.nome title artist true
        "python_monitor" s2 ∧ isBareTimestamp title.data = false ∧ 2 ≤ title.length) ∨
    (∃ artist title, op = RemoteOp.insertHistorico dados.nome artist title
        "python_monitor" ∧ isBareTimestamp title.data = false ∧ 2 ≤ title.length) := by
  unfold enviar_para_supabase at hop
  rcases hta : dados.tocando_agora with _ | raw
  · rw [hta] at hop
    simp at hop
  · rw [hta] at hop
    simp only [] at hop
    by_cases hraw : raw = ""
    · rw [if_pos hraw] at hop
      simp at hop
    · rw [if_neg hraw] at hop
      by_cases h1 : (isBareTimestamp (resolveTitle raw).data ||
          decide ((resolveTitle raw).length < 2)) = true
      · rw [if_pos h1] at hop
        simp at hop
      · rw [if_neg h1] at hop
        simp only [Bool.or_eq_true, decide_eq_true_eq, not_or,
          Bool.not_eq_true] at h1
        by_cases h2 : resolveArtist raw = "Desconhecido" ∧ (resolveTitle raw).length < 4
        · rw [if_pos h2] at hop
          simp at hop
        · rw [if_neg h2] at hop
          simp only [List.mem_cons] at hop
          rcases hop with rfl | rfl | hop3
          · exact Or.inl ⟨resolveTitle raw, resolveArtist raw, _, rfl, h1.1, by omega⟩
          · exact Or.inr ⟨resolveArtist raw, resolveTitle raw, rfl, h1.1, by omega⟩
          · unfold recentOps at hop3
            obtain ⟨s2, _, hpush⟩ := List.mem_filterMap.mp hop3
            obtain ⟨hacc, rfl⟩ := recentAccept_of_push hpush
            obtain ⟨hts, hlen, _⟩ := recentAccept_title hacc
            exact Or.inr ⟨(parse_song_text s2).artist, (parse_song_text s2).title,
              rfl, hts, by omega⟩

/-- C4 (amended): the bare-timestamp / short-title noise filter is
enforced for every observation the sync client pushes remotely (both
tables), not for the local history store; the local store records the
raw capture text unfiltered (see the counterexample). -/
theorem pushes_satisfy_title_filter (dados : Capture) (sid : Option Nat)
    (op : RemoteOp) (hop : op ∈ enviar_para_supabase dados sid)
    (t : String) (ht : opTitle op = some t) :
    isBareTimestamp t.data = false ∧ 2 ≤ t.length := by
  rcases enviar_ops_shape dados sid op hop with
    ⟨title, artist, s2, rfl, hts, hlen⟩ | ⟨artist, title, rfl, hts, hlen⟩
  · cases ht
    exact ⟨hts, hlen⟩
  · cases ht
    exact ⟨hts, hlen⟩

/-- C4 counterexample: a capture whose tocando_agora is a bare HH:MM
token, or a single character, is recorded in the local history store as
is; the filter does not run before local storage. -/
theorem local_store_unfiltered_counterexample :
    atualizarHistoricoLocal []
      { url := "u", nome := "R", tocando_agora := some "12:45",
        ultimas_tocadas := [], timestamp := "T", erro := none } =
      [{ musica := "12:45", timestamp := "T" }] ∧
    isBareTimestamp ("12:45" : String).data = true ∧
    atualizarHistoricoLocal []
      { url := "u", nome := "R", tocando_agora := some "x",
        ultimas_tocadas := [], timestamp := "T", erro := none } =
      [{ musica := "x", timestamp := "T" }] := by decide

/-- Witness for C4 at a concrete capture and push. -/
theorem pushes_satisfy_title_filter_witness :
    isBareTimestamp ("Musica0" : String).data = false ∧
    2 ≤ ("Musica0" : String).length :=
  pushes_satisfy_title_filter
    { url := "u", nome := "R", tocando_agora := some "Artista0 - Musica0",
      ultimas_tocadas := [], timestamp := "T", erro := none }
    (some 1)
    (RemoteOp.insertHistorico "R" "Artista0" "Musica0" "python_monitor")
    (by decide) "Musica0" (by decide)

/-- C5 (amended): when extraction yields no now-playing text, the sync
client pushes nothing at all (the recently-played items are pushed only
after an accepted now-playing push), and the local history for the
station is left unchanged. -/
theorem no_now_playing_no_pushes (dados : Capture) (sid : Option Nat)
    (hist : List HistoryEntry) (h : dados.tocando_agora = none) :
    enviar_para_supabase dados sid = [] ∧ atualizarHistoricoLocal hist dados = hist := by
  unfold enviar_para_supabase atualizarHistoricoLocal
  rw [h]
  exact ⟨rfl, rfl⟩

/-- C5 counterexample: one station with no now-playing text and 3
distinct recently-played items, each of which passes the recent-item
filter: after the cycle step the local history is empty, not the
accepted subset, and no push is performed at all. -/
theorem cycle_without_now_playing_counterexample :
    enviar_para_supabase
      { url := "u", nome := "R", tocando_agora := none,
        ultimas_tocadas := ["Artista1 - Musica1", "Artista2 - Musica2",
          "Artista3 - Musica3"], timestamp := "T", erro := none } (some 1) = [] ∧
    atualizarHistoricoLocal []
      { url := "u", nome := "R", tocando_agora := none,
        ultimas_tocadas := ["Artista1 - Musica1", "Artista2 - Musica2",
          "Artista3 - Musica3"], timestamp := "T", erro := none } = [] ∧
    recentAccept (parse_song_text "Artista1 - Musica1").title
      (parse_song_text "Artista1 - Musica1").artist = true := by decide

/-- Witness for C5 at a concrete capture with no now-playing text. -/
theorem no_now_playing_no_pushes_witness :
    enviar_para_supabase
      { url := "u", nome := "R", tocando_agora := none, ultimas_tocadas := [],
        timestamp := "T", erro := none } none = [] ∧
    atualizarHistoricoLocal []
      { url := "u", nome := "R", tocando_agora := none, ultimas_tocadas := [],
        timestamp := "T", erro := none } = [] :=
  no_now_playing_no_pushes
    { url := "u", nome := "R", tocando_agora := none, ultimas_tocadas := [],
      timestamp := "T", erro := none } none [] rfl

/-- C6 (amended): the sync client performs no existence query before
inserting: every remote operation it issues is an insert, so historical
observations are inserted unconditionally with no 1-hour dedup window. -/
theorem sync_performs_no_query (dados : Capture) (sid : Option Nat) :
    (enviar_para_supabase dados sid).all isInsertOp = true := by
  rw [List.all_eq_true]
  intro op hop
  rcases enviar_ops_shape dados sid op hop with
    ⟨title, artist, s2, rfl, _, _⟩ | ⟨artist, title, rfl, _, _⟩
  · rfl
  · rfl

/-- C6 counterexample: a concrete cycle step inserts two rolling-history
records (one of them a non-now-playing back-catalog item) while issuing
zero select queries, so no duplicate check precedes the insert. -/
theorem sync_no_dedup_counterexample :
    (enviar_para_supabase
      { url := "u", nome := "R", tocando_agora := some "Artista0 - Musica0",
        ultimas_tocadas := ["Artista1 - Musica1"], timestamp := "T", erro := none }
      (some 2)).countP isHistoricoInsert = 2 ∧
    (enviar_para_supabase
      { url := "u", nome := "R", tocando_agora := some "Artista0 - Musica0",
        ultimas_tocadas := ["Artista1 - Musica1"], timestamp := "T", erro := none }
      (some 2)).countP isSelectOp = 0 := by decide

/-- C10: the recently-played pushes are exactly the accepted items among
the first 5, where acceptance needs title length at least 3, no bare
HH:MM title, and a non-sentinel artist; this test is strictly stricter
than the now-playing test (it implies it, and the converse fails at
title "abcd" with the sentinel artist). -/
theorem recent_push_policy (nome : String) (ultimas : List String) :
    recentOps nome ultimas =
      ((ultimas.take 5).filter
        (fun s2 => recentAccept (parse_song_text s2).title
          (parse_song_text s2).artist)).map
        (fun s2 => RemoteOp.insertHistorico nome (parse_song_text s2).artist
          (parse_song_text s2).title "python_monitor") ∧
    (∀ t a, recentAccept t a = true → nowPlayingAccept t a = true) ∧
    nowPlayingAccept "abcd" "Desconhecido" = true ∧
    recentAccept "abcd" "Desconhecido" = false := by
  refine ⟨?_, ?_, by decide, by decide⟩
  · unfold recentOps
    have hgen : ∀ l : List String, l.filterMap (recentPush nome) =
        (l.filter (fun s2 => recentAccept (parse_song_text s2).title
          (parse_song_text s2).artist)).map
        (fun s2 => RemoteOp.insertHistorico nome (parse_song_text s2).artist
          (parse_song_text s2).title "python_monitor") := by
      intro l
      induction l with
      | nil => rfl
      | cons x xs ih =>
        by_cases hx : recentAccept (parse_song_text x).title
            (parse_song_text x).artist = true
        · simp only [List.filterMap_cons, List.filter_cons, hx, if_pos, recentPush]
          simp [ih]
        · simp only [List.filterMap_cons, List.filter_cons, recentPush]
          rw [if_neg hx]
          simp only [Bool.not_eq_true] at hx
          simp [hx, ih]
    exact hgen (ultimas.take 5)
  · intro t a h
    obtain ⟨hts, hlen, ha⟩ := recentAccept_title h
    unfold nowPlayingAccept
    simp only [Bool.and_eq_true, Bool.not_eq_true', Bool.or_eq_false_iff,
      decide_eq_false_iff_not, Bool.and_eq_false_iff]
    refine ⟨⟨hts, by omega⟩, Or.inl ?_⟩
    simp [ha]

/-- Witness for C10: the strictness implication at a concrete accepted
pair, through the theorem. -/
theorem recent_push_policy_witness :
    nowPlayingAccept "Musica1" "Artista1" = true :=
  (recent_push_policy "R" []).2.1 "Musica1" "Artista1" (by decide)

end Theorems

end RadioMonitor
